import Mathlib

/-!
# Verification of the Cromos detection/aggregation pipeline (`src/infer.py`)

This file gives a shallow embedding of the algorithmic core of `YOLODetector`
in `infer.py`: bounding-box geometry (`_calculate_iou`, `compute_iou`,
`_is_box_completely_outside`), the cross-class resolver
(`_apply_exclusive_filtering`, `_filter_overlapping_detections`), the temporal
count stabilizer (`_stabilize_detection_count`), the transfer-tracking part of
`process_frame`, the transfer finalization (`_finalize_transfer`), and the
statistics summary (`get_final_statistics_summary`).

Modelling conventions:
* Python floats are modelled as exact rationals (`ℚ`); pixel coordinates and
  counts are integers (`ℤ`/`ℕ`).
* `int(round(x))` is modelled by `pyRound`, Python 3 round-half-to-even.
* External model inference (YOLO calls), drawing, logging and timing have no
  effect on the modelled state; the per-frame inference outputs are taken as
  inputs of the per-frame transition (`RoiFrameData`).
* Python dicts keyed by the three fixed class names are modelled as structures
  with one field per key; dict truthiness of `detections_by_class` is the
  explicit input flag `detKeysNonempty` (a key can be present with an empty
  list, so this is not derivable from the lists alone).
-/

namespace Cromos

/- Let the kernel-checked evaluations (`decide`) see through the rational
arithmetic used by the model. -/
attribute [local semireducible] Rat.mul Rat.inv Rat.add Rat.sub

/-- A bounding box `(x1, y1, x2, y2)` in frame coordinates. -/
abbrev Box := ℤ × ℤ × ℤ × ℤ

/-- `_calculate_iou` (infer.py:446): IOU between two `(x1,y1,x2,y2)` boxes,
0 when the intersection test `x2_i <= x1_i or y2_i <= y1_i` fails or the
union area is not positive. -/
def calculateIou (box1 box2 : Box) : ℚ :=
  let x1i := max box1.1 box2.1
  let y1i := max box1.2.1 box2.2.1
  let x2i := min box1.2.2.1 box2.2.2.1
  let y2i := min box1.2.2.2 box2.2.2.2
  if x2i ≤ x1i ∨ y2i ≤ y1i then 0
  else
    let intersection := (x2i - x1i) * (y2i - y1i)
    let area1 := (box1.2.2.1 - box1.1) * (box1.2.2.2 - box1.2.1)
    let area2 := (box2.2.2.1 - box2.1) * (box2.2.2.2 - box2.2.1)
    let union := area1 + area2 - intersection
    if 0 < union then (intersection : ℚ) / (union : ℚ) else 0

/-- `compute_iou` (infer.py:283): same computation with a strict
disjointness guard `inter_x_max < inter_x_min or inter_y_max < inter_y_min`
and the same `union_area > 0` guard before dividing. -/
def computeIou (box1 box2 : Box) : ℚ :=
  let ixmin := max box1.1 box2.1
  let iymin := max box1.2.1 box2.2.1
  let ixmax := min box1.2.2.1 box2.2.2.1
  let iymax := min box1.2.2.2 box2.2.2.2
  if ixmax < ixmin ∨ iymax < iymin then 0
  else
    let interArea := (ixmax - ixmin) * (iymax - iymin)
    let box1Area := (box1.2.2.1 - box1.1) * (box1.2.2.2 - box1.2.1)
    let box2Area := (box2.2.2.1 - box2.1) * (box2.2.2.2 - box2.2.1)
    let unionArea := box1Area + box2Area - interArea
    if 0 < unionArea then (interArea : ℚ) / (unionArea : ℚ) else 0

/-- `_is_box_completely_outside` (infer.py:478): `box1` is completely outside
`box2` when it is separated (non-strictly) in some axis direction. -/
def isBoxCompletelyOutside (box1 box2 : Box) : Bool :=
  decide (box1.2.2.1 ≤ box2.1) ||      -- completely to the left
  decide (box2.2.2.1 ≤ box1.1) ||      -- completely to the right
  decide (box1.2.2.2 ≤ box2.2.1) ||    -- completely above
  decide (box2.2.2.2 ≤ box1.2.1)       -- completely below

/-- The signed area `(x2-x1)*(y2-y1)` of a box. -/
def boxArea (b : Box) : ℤ := (b.2.2.1 - b.1) * (b.2.2.2 - b.2.1)

/-- Coordinates are ordered: `x1 ≤ x2 ∧ y1 ≤ y2`. -/
def orderedBox (b : Box) : Prop := b.1 ≤ b.2.2.1 ∧ b.2.1 ≤ b.2.2.2

/-- Strictly ordered coordinates (a box with positive width and height). -/
def properBox (b : Box) : Prop := b.1 < b.2.2.1 ∧ b.2.1 < b.2.2.2

/-- Two boxes merely touch: their closed rectangles meet but the
intersection has zero area (they share a boundary edge or a corner). -/
def touchesWithZeroArea (b1 b2 : Box) : Prop :=
  (min b1.2.2.1 b2.2.2.1 = max b1.1 b2.1 ∧ max b1.2.1 b2.2.1 ≤ min b1.2.2.2 b2.2.2.2) ∨
  (min b1.2.2.2 b2.2.2.2 = max b1.2.1 b2.2.1 ∧ max b1.1 b2.1 ≤ min b1.2.2.1 b2.2.2.1)

instance (b : Box) : Decidable (orderedBox b) := by unfold orderedBox; infer_instance

instance (b : Box) : Decidable (properBox b) := by unfold properBox; infer_instance

instance (b1 b2 : Box) : Decidable (touchesWithZeroArea b1 b2) := by
  unfold touchesWithZeroArea; infer_instance

/-! ## Detections and the cross-class resolver -/

/-- The three detector classes, i.e. the keys of `detections_by_class`
built in `process_frame` (infer.py:1444-1487). -/
inductive ClassName where
  | smudge
  | simbolos
  | blackdot
deriving DecidableEq, Repr

/-- A detection record `{'bbox': ..., 'confidence': ..., 'class_id': ...}`;
`class_id` is present only for the `simbolos` model's six sub-classes. -/
structure Det where
  bbox : Box
  confidence : ℚ
  class_id : Option ℤ
deriving DecidableEq, Repr

/-- The `detections_by_class` dict, one list per class key. -/
structure DetectionsByClass where
  smudge : List Det
  simbolos : List Det
  blackdot : List Det
deriving DecidableEq, Repr

/-- `self.class_priority.index(class_name)` for
`class_priority = ["blackdot", "simbolos", "smudge"]` (infer.py:118,537,668).
The `else 999` fallback of the source is unreachable for the three modelled
keys. -/
def classPriorityIndex : ClassName → ℕ
  | ClassName.blackdot => 0
  | ClassName.simbolos => 1
  | ClassName.smudge => 2

/-- An annotated candidate as built inside `_apply_exclusive_filtering`
(infer.py:684-692) and `_filter_overlapping_detections` (infer.py:553-562). -/
structure ExDet where
  className : ClassName
  bbox : Box
  confidence : ℚ
  class_id : Option ℤ
  priority : ℕ
  is_exclusive : Bool
  is_fifa_in_simbolos : Bool
  is_fifa_smudge : Bool
deriving DecidableEq, Repr

/-- Annotate one detection with its flags and priority, as both resolver
passes do (infer.py:530-551 and 661-682). -/
def mkExDet (className : ClassName) (d : Det) : ExDet :=
  let is_fifa_in_simbolos : Bool :=
    decide (className = ClassName.simbolos) &&
      (decide (d.class_id = some 0) || decide (d.class_id = some 1))
  let is_fifa_smudge : Bool := decide (className = ClassName.smudge)
  let base_priority := classPriorityIndex className
  { className := className
    bbox := d.bbox
    confidence := d.confidence
    class_id := d.class_id
    priority :=
      if is_fifa_in_simbolos then 1
      else if is_fifa_smudge then base_priority
      else base_priority
    is_exclusive :=
      decide (className = ClassName.smudge) || decide (className = ClassName.simbolos) ||
        decide (className = ClassName.blackdot)
    is_fifa_in_simbolos := is_fifa_in_simbolos
    is_fifa_smudge := is_fifa_smudge }

/-- The ascending comparison used by
`sort(key=lambda x: (x['priority'], -x['confidence']))`. -/
def detLe (a b : ExDet) : Bool :=
  decide (a.priority < b.priority) ||
    (decide (a.priority = b.priority) && decide (b.confidence ≤ a.confidence))

/-- Stable insertion of one element for `sortDets`. -/
def insertDet (a : ExDet) : List ExDet → List ExDet
  | [] => [a]
  | b :: l => if detLe a b then a :: b :: l else b :: insertDet a l

/-- Stable sort by `(priority, -confidence)`; Python's `list.sort` is stable,
and insertion sort with the total preorder `detLe` produces the same stable
ascending order. -/
def sortDets : List ExDet → List ExDet
  | [] => []
  | a :: l => insertDet a (sortDets l)

/-- The candidates of both passes in construction order (`smudge`, then
`simbolos`, then `blackdot`, matching both loops over the class keys). -/
def allExDets (dbc : DetectionsByClass) : List ExDet :=
  (dbc.smudge.map (mkExDet ClassName.smudge)) ++
  (dbc.simbolos.map (mkExDet ClassName.simbolos)) ++
  (dbc.blackdot.map (mkExDet ClassName.blackdot))

/-- One iteration of the acceptance loop of `_apply_exclusive_filtering`
(infer.py:708-740): a smudge candidate is skipped unless completely outside
every non-smudge candidate box; every candidate is then greedily rejected if
it has IOU above 0.02 with an already accepted detection, except for the
smudge/FIFA-in-simbolos pair. -/
def exclusiveStep (otherExclusiveFlat : List Box) (acc : List ExDet) (detection : ExDet) :
    List ExDet :=
  if detection.is_fifa_smudge &&
      !(otherExclusiveFlat.all fun b => isBoxCompletelyOutside detection.bbox b) then
    acc
  else if acc.any (fun accepted =>
      let fifaFifaIntersection :=
        (detection.is_fifa_smudge && accepted.is_fifa_in_simbolos) ||
        (detection.is_fifa_in_simbolos && accepted.is_fifa_smudge)
      !fifaFifaIntersection && decide ((1 : ℚ)/50 < calculateIou detection.bbox accepted.bbox)) then
    acc
  else
    acc ++ [detection]

/-- Regroup accepted candidates by class, in acceptance order
(infer.py:742-756 and 624-634). -/
def regroupByClass (accepted : List ExDet) : DetectionsByClass :=
  { smudge := (accepted.filter (fun d => decide (d.className = ClassName.smudge))).map
      (fun d => ⟨d.bbox, d.confidence, d.class_id⟩)
    simbolos := (accepted.filter (fun d => decide (d.className = ClassName.simbolos))).map
      (fun d => ⟨d.bbox, d.confidence, d.class_id⟩)
    blackdot := (accepted.filter (fun d => decide (d.className = ClassName.blackdot))).map
      (fun d => ⟨d.bbox, d.confidence, d.class_id⟩) }

/-- `_apply_exclusive_filtering` (infer.py:638-756). -/
def applyExclusiveFiltering (dbc : DetectionsByClass) : DetectionsByClass :=
  let sorted := sortDets (allExDets dbc)
  let otherExclusiveFlat := (sorted.filter (fun d => !d.is_fifa_smudge)).map (fun d => d.bbox)
  regroupByClass (sorted.foldl (exclusiveStep otherExclusiveFlat) [])

/-- One iteration of the acceptance loop of `_filter_overlapping_detections`
(infer.py:578-634): the same completely-outside rule for smudge, then a
0.1 IOU threshold between an exclusive candidate and an accepted detection of
a different class, the `overlap_threshold` for non-exclusive candidates, and
no check between an exclusive candidate and its own class. -/
def overlapStep (overlapThreshold : ℚ) (otherDetectionsFlat : List Box)
    (acc : List ExDet) (detection : ExDet) : List ExDet :=
  if detection.is_fifa_smudge &&
      !(otherDetectionsFlat.all fun b => isBoxCompletelyOutside detection.bbox b) then
    acc
  else if acc.any (fun accepted =>
      let accepted_is_fifa_in_simbolos :=
        decide (accepted.className = ClassName.simbolos) &&
          (decide (accepted.class_id = some 0) || decide (accepted.class_id = some 1))
      let fifaFifaIntersection :=
        (detection.is_fifa_smudge && accepted_is_fifa_in_simbolos) ||
        (detection.is_fifa_in_simbolos && decide (accepted.className = ClassName.smudge))
      if fifaFifaIntersection then false
      else if detection.is_exclusive && !decide (accepted.className = detection.className) then
        decide ((1 : ℚ)/10 < calculateIou detection.bbox accepted.bbox)
      else if !detection.is_exclusive then
        decide (overlapThreshold < calculateIou detection.bbox accepted.bbox)
      else false) then
    acc
  else
    acc ++ [detection]

/-- `_filter_overlapping_detections` (infer.py:503-636); `overlapThreshold`
is `self.overlap_threshold` (default 0.3). -/
def filterOverlappingDetections (overlapThreshold : ℚ) (dbc : DetectionsByClass) :
    DetectionsByClass :=
  let sorted := sortDets (allExDets dbc)
  let otherDetectionsFlat := (dbc.simbolos.map (fun d => d.bbox)) ++
    (dbc.blackdot.map (fun d => d.bbox))
  regroupByClass (sorted.foldl (overlapStep overlapThreshold otherDetectionsFlat) [])

/-! ## Temporal count stabilization -/

/-- Python 3 `int(round(x))`: round half to even. -/
def pyRound (q : ℚ) : ℤ :=
  let f := ⌊q⌋
  let r := q - (f : ℚ)
  if r < 1/2 then f
  else if 1/2 < r then f + 1
  else if f % 2 = 0 then f else f + 1

/-- `self.detection_history[...] = self.detection_history[...][-window:]`
applied when the history exceeds the window (infer.py:772-774). -/
def trimHistory (window : ℕ) (h1 : List ℕ) : List ℕ :=
  if window < h1.length then h1.drop (h1.length - window) else h1

/-- Weighted moving average with weights `i + 1` over the history
(infer.py:776-781). -/
def weightedMovingAverage (h2 : List ℕ) : ℚ :=
  let weightedSum := (h2.enum.map (fun p => (p.2 : ℚ) * ((p.1 : ℚ) + 1))).sum
  let totalWeight := (h2.enum.map (fun p => ((p.1 : ℚ) + 1))).sum
  weightedSum / totalWeight

/-- The jump limiter (infer.py:783-788): when the smoothed value differs from
`detection_history[class_name][-2]` — the previous RAW count — by more than
`max(1, previous_count * 0.5)`, step by exactly ±1 from that raw count. -/
def jumpLimited (h2 : List ℕ) (stabilized : ℚ) : ℚ :=
  if 1 < h2.length then
    let previousCount : ℚ := (h2.getD (h2.length - 2) 0 : ℕ)
    let maxChange := max 1 (previousCount * (1/2))
    if maxChange < |stabilized - previousCount| then
      previousCount + (if previousCount < stabilized then 1 else -1)
    else stabilized
  else stabilized

/-- `_stabilize_detection_count` (infer.py:758-792) acting on one class's
history: returns the updated stored history and the stabilized count. The
history-empty fallback (`return current_count`) is kept although the history
is never empty after the append. -/
def stabilizeDetectionCount (window : ℕ) (history : List ℕ) (currentCount : ℕ) :
    List ℕ × ℤ :=
  let h2 := trimHistory window (history ++ [currentCount])
  if 0 < h2.length then
    (h2, pyRound (jumpLimited h2 (weightedMovingAverage h2)))
  else (h2, (currentCount : ℤ))

/-- Feed a sequence of raw per-frame counts through the stabilizer, starting
from an empty history; returns the final history and the stabilized outputs. -/
def stabilizeRun (window : ℕ) (raws : List ℕ) : List ℕ × List ℤ :=
  raws.foldl (fun p c =>
    let r := stabilizeDetectionCount window p.1 c
    (r.1, p.2 ++ [r.2])) ([], [])

/-! ## Transfer tracking state -/

/-- `self.current_transfer_stats` (infer.py:144-154): nine per-frame count
sequences scoped to the in-progress transfer. -/
structure TransferSeqs where
  smudge : List ℤ
  simbolos : List ℤ
  blackdot : List ℤ
  fifa_ok : List ℤ
  fifa_no : List ℤ
  simbolo_ok : List ℤ
  simbolo_no : List ℤ
  string_ok : List ℤ
  string_no : List ℤ
deriving DecidableEq, Repr

/-- The empty set of per-transfer sequences. -/
def TransferSeqs.empty : TransferSeqs := ⟨[], [], [], [], [], [], [], [], []⟩

/-- The immutable transfer record appended to
`transfer_stats["transfer_history"]` by `_finalize_transfer`
(infer.py:1717-1763). -/
structure TransferRecord where
  transfer_id : ℕ
  duration_frames : ℕ
  start_frame : ℕ
  smudge_avg : ℚ
  simbolos_avg : ℚ
  blackdot_avg : ℚ
  approved : Bool
  smudge_detected : Bool
  simbolos_detected : Bool
  blackdot_detected : Bool
  smudge_reject : Bool
  simbolos_reject : Bool
  blackdot_reject : Bool
  blackdot_total : ℤ
  blackdot_frames : ℕ
  smudge_total : ℤ
  smudge_frames : ℕ
  fifa_total : ℤ
  fifa_ok : ℤ
  fifa_no : ℤ
  fifa_frames : ℕ
  simbolo_total : ℤ
  simbolo_ok : ℤ
  simbolo_no : ℤ
  simbolo_frames : ℕ
  string_total : ℤ
  string_ok : ℤ
  string_no : ℤ
  string_frames : ℕ
deriving DecidableEq, Repr

/-- The mutable per-instance state of `YOLODetector` that the transfer
tracker, stabilizer and statistics aggregator read and write. Fields that do
not feed back into these components (ROI bbox smoothing history, predominant
class moving average, performance timers, model handles) are omitted. -/
structure State where
  frame_count : ℕ
  transfer_count : ℕ
  frames_without_roi : ℕ
  current_transfer_active : Bool
  current_transfer_start_frame : ℕ
  current_transfer_frames : ℕ
  stabilization_window : ℕ
  absent_to_new : ℕ
  overlap_threshold : ℚ
  detection_history_smudge : List ℕ
  detection_history_simbolos : List ℕ
  detection_history_blackdot : List ℕ
  seqs : TransferSeqs
  avg_smudge : ℚ
  avg_simbolos : ℚ
  avg_blackdot : ℚ
  total_evaluated : ℕ
  total_approved : ℕ
  total_rejected : ℕ
  transfer_history : List TransferRecord
deriving DecidableEq, Repr

/-- The state after `__init__` with the default configuration
(window 8, `ABSENT_TO_NEW` 8, `overlap_threshold` 0.3). -/
def initState : State :=
  { frame_count := 0
    transfer_count := 0
    frames_without_roi := 0
    current_transfer_active := false
    current_transfer_start_frame := 0
    current_transfer_frames := 0
    stabilization_window := 8
    absent_to_new := 8
    overlap_threshold := 3/10
    detection_history_smudge := []
    detection_history_simbolos := []
    detection_history_blackdot := []
    seqs := TransferSeqs.empty
    avg_smudge := 0
    avg_simbolos := 0
    avg_blackdot := 0
    total_evaluated := 0
    total_approved := 0
    total_rejected := 0
    transfer_history := [] }

/-- `np.mean` of a nonempty count list, guarded as in
`_finalize_transfer` (infer.py:1657-1661): 0 on the empty list. -/
def avgOf (l : List ℤ) : ℚ :=
  if 0 < l.length then (l.sum : ℚ) / (l.length : ℚ) else 0

/-- Number of frames with at least one detection:
`sum(1 for count in l if count > 0)`. -/
def framesWithDetection (l : List ℤ) : ℕ :=
  (l.filter (fun c => decide (0 < c))).length

/-- Number of frames with an OK or NO detection:
`sum(1 for ok, no in zip(okl, nol) if ok > 0 or no > 0)`. -/
def framesWithOkNo (okl nol : List ℤ) : ℕ :=
  ((okl.zip nol).filter (fun p => decide (0 < p.1) || decide (0 < p.2))).length

/-- The record built by `_finalize_transfer` (infer.py:1654-1763) from the
current state: per-class means and totals, the 20% rejection flags, and the
approval verdict `approved = not (any class average > 0.20)`. -/
def transferRecordOf (s : State) : TransferRecord :=
  let smudge_avg := avgOf s.seqs.smudge
  let simbolos_avg := avgOf s.seqs.simbolos
  let blackdot_avg := avgOf s.seqs.blackdot
  let fifa_ok_total := s.seqs.fifa_ok.sum
  let fifa_no_total := s.seqs.fifa_no.sum
  let simbolo_ok_total := s.seqs.simbolo_ok.sum
  let simbolo_no_total := s.seqs.simbolo_no.sum
  let string_ok_total := s.seqs.string_ok.sum
  let string_no_total := s.seqs.string_no.sum
  let smudge_reject := decide ((1 : ℚ)/5 < smudge_avg)
  let simbolos_reject := decide ((1 : ℚ)/5 < simbolos_avg)
  let blackdot_reject := decide ((1 : ℚ)/5 < blackdot_avg)
  { transfer_id := s.transfer_count
    duration_frames := s.current_transfer_frames
    start_frame := s.current_transfer_start_frame
    smudge_avg := smudge_avg
    simbolos_avg := simbolos_avg
    blackdot_avg := blackdot_avg
    approved := !(smudge_reject || simbolos_reject || blackdot_reject)
    smudge_detected := decide (0 < smudge_avg)
    simbolos_detected := decide (0 < simbolos_avg)
    blackdot_detected := decide (0 < blackdot_avg)
    smudge_reject := smudge_reject
    simbolos_reject := simbolos_reject
    blackdot_reject := blackdot_reject
    blackdot_total := s.seqs.blackdot.sum
    blackdot_frames := framesWithDetection s.seqs.blackdot
    smudge_total := s.seqs.smudge.sum
    smudge_frames := framesWithDetection s.seqs.smudge
    fifa_total := fifa_ok_total + fifa_no_total
    fifa_ok := fifa_ok_total
    fifa_no := fifa_no_total
    fifa_frames := framesWithOkNo s.seqs.fifa_ok s.seqs.fifa_no
    simbolo_total := simbolo_ok_total + simbolo_no_total
    simbolo_ok := simbolo_ok_total
    simbolo_no := simbolo_no_total
    simbolo_frames := framesWithOkNo s.seqs.simbolo_ok s.seqs.simbolo_no
    string_total := string_ok_total + string_no_total
    string_ok := string_ok_total
    string_no := string_no_total
    string_frames := framesWithOkNo s.seqs.string_ok s.seqs.string_no }

/-- `_finalize_transfer` (infer.py:1654-1801): store the per-class averages,
update the running totals according to the verdict, clear the nine current
sequences, and append the record to the history capped at 100 (FIFO). -/
def finalizeTransfer (s : State) : State :=
  let r := transferRecordOf s
  let hist := s.transfer_history ++ [r]
  { s with
    avg_smudge := r.smudge_avg
    avg_simbolos := r.simbolos_avg
    avg_blackdot := r.blackdot_avg
    total_evaluated := s.total_evaluated + 1
    total_approved := if r.approved then s.total_approved + 1 else s.total_approved
    total_rejected := if r.approved then s.total_rejected else s.total_rejected + 1
    seqs := TransferSeqs.empty
    transfer_history := if 100 < hist.length then hist.drop 1 else hist }

/-! ## The per-frame transition (`process_frame`, infer.py:1331-1652)

The inference outputs of a frame are inputs of the transition. For each
sub-detector, `enabled` is the `model_enabled` flag, `valid` abstracts
"the YOLO result is non-`None` and passes its quality validator"
(`_validate_fifa_detection` for smudge, `_validate_detection_quality` for the
others), and `raw` is `len(result.boxes)`. `dets` is the in-ROI-filtered,
frame-mapped `detections_by_class` content, `detKeysNonempty` its dict
truthiness, and `okNo` the output of `_analyze_ok_no_classes`. -/

/-- The six per-frame OK/NO counts returned by `_analyze_ok_no_classes`. -/
structure OkNoCounts where
  fifa_ok : ℕ
  fifa_no : ℕ
  simbolo_ok : ℕ
  simbolo_no : ℕ
  string_ok : ℕ
  string_no : ℕ
deriving DecidableEq, Repr

/-- Per-frame inference data available when the ROI was found. -/
structure RoiFrameData where
  smudgeEnabled : Bool
  smudgeValid : Bool
  smudgeRaw : ℕ
  simbolosEnabled : Bool
  simbolosValid : Bool
  simbolosRaw : ℕ
  blackdotEnabled : Bool
  blackdotValid : Bool
  blackdotRaw : ℕ
  dets : DetectionsByClass
  detKeysNonempty : Bool
  okNo : OkNoCounts
deriving DecidableEq, Repr

/-- A processed frame: `some` ROI data, or `none` when
`extract_roi_from_segmentation` found no ROI. -/
abbrev FrameInput := Option RoiFrameData

/-- `lst[-1] = v` on a per-frame sequence (infer.py:1517-1519); the list is
never empty at the call sites (an element was appended this frame). -/
def updateLast (l : List ℤ) (v : ℤ) : List ℤ := l.set (l.length - 1) v

/-- Append the three stabilized per-class counts to the per-frame
sequences (infer.py:1403, 1422, 1441). -/
def appendFrameCounts (seqs : TransferSeqs) (a b c : ℤ) : TransferSeqs :=
  { seqs with
    smudge := seqs.smudge ++ [a]
    simbolos := seqs.simbolos ++ [b]
    blackdot := seqs.blackdot ++ [c] }

/-- Overwrite the just-appended entries with the resolver-filtered counts
when the detections dict was nonempty (infer.py:1511-1519). -/
def overrideFrameCounts (cond : Bool) (seqs : TransferSeqs) (a b c : ℤ) : TransferSeqs :=
  if cond then
    { seqs with
      smudge := updateLast seqs.smudge a
      simbolos := updateLast seqs.simbolos b
      blackdot := updateLast seqs.blackdot c }
  else seqs

/-- The ROI-present branch of `process_frame` (infer.py:1356-1569): open the
transfer if needed, run validation + stabilization per class, append the
(possibly overridden) counts to the per-frame sequences, and run the two
resolver passes when the detections dict is nonempty. Returns the updated
state and the final `stats["simbolos"]` value. -/
def presentRoiUpdate (s : State) (r : RoiFrameData) : State × ℤ :=
  let startFrame := if s.current_transfer_active then s.current_transfer_start_frame
    else s.frame_count
  let ctFrames := (if s.current_transfer_active then s.current_transfer_frames else 0) + 1
  let smudgeStep :=
    if r.smudgeEnabled then
      stabilizeDetectionCount s.stabilization_window s.detection_history_smudge
        (if r.smudgeValid then r.smudgeRaw else 0)
    else (s.detection_history_smudge, 0)
  let simbolosStep :=
    if r.simbolosEnabled then
      stabilizeDetectionCount s.stabilization_window s.detection_history_simbolos
        (if r.simbolosValid then r.simbolosRaw else 0)
    else (s.detection_history_simbolos, 0)
  let blackdotStep :=
    if r.blackdotEnabled then
      stabilizeDetectionCount s.stabilization_window s.detection_history_blackdot
        (if r.blackdotValid then r.blackdotRaw else 0)
    else (s.detection_history_blackdot, 0)
  let seqs1 := appendFrameCounts s.seqs smudgeStep.2 simbolosStep.2 blackdotStep.2
  let filtered := filterOverlappingDetections s.overlap_threshold
    (applyExclusiveFiltering r.dets)
  let statsSmudge : ℤ := if r.detKeysNonempty then (filtered.smudge.length : ℤ)
    else smudgeStep.2
  let statsSimbolos : ℤ := if r.detKeysNonempty then (filtered.simbolos.length : ℤ)
    else simbolosStep.2
  let statsBlackdot : ℤ := if r.detKeysNonempty then (filtered.blackdot.length : ℤ)
    else blackdotStep.2
  let seqs2 := overrideFrameCounts r.detKeysNonempty seqs1 statsSmudge statsSimbolos statsBlackdot
  ({ s with
      current_transfer_active := true
      current_transfer_start_frame := startFrame
      current_transfer_frames := ctFrames
      frames_without_roi := 0
      detection_history_smudge := smudgeStep.1
      detection_history_simbolos := simbolosStep.1
      detection_history_blackdot := blackdotStep.1
      seqs := seqs2 }, statsSimbolos)

/-- The ROI-absent branch of `process_frame` (infer.py:1570-1581): count the
absent frame and finalize the active transfer once the counter reaches
`ABSENT_TO_NEW`. -/
def absentRoiUpdate (s : State) : State :=
  let s1 := { s with frames_without_roi := s.frames_without_roi + 1 }
  if s1.current_transfer_active && decide (s1.absent_to_new ≤ s1.frames_without_roi) then
    let s2 := finalizeTransfer s1
    { s2 with
      transfer_count := s2.transfer_count + 1
      current_transfer_active := false
      current_transfer_frames := 0 }
  else s1

/-- The OK/NO accumulation tail of `process_frame` (infer.py:1624-1646),
executed on every frame: when the transfer is active, append the analyzed
OK/NO counts if `stats["simbolos"] > 0 and simbolos_result`, else zeros. -/
def appendOkNoSeqs (seqs : TransferSeqs) (branchTaken : Bool) (v : OkNoCounts) : TransferSeqs :=
  { seqs with
    fifa_ok := seqs.fifa_ok ++ [if branchTaken then (v.fifa_ok : ℤ) else 0]
    fifa_no := seqs.fifa_no ++ [if branchTaken then (v.fifa_no : ℤ) else 0]
    simbolo_ok := seqs.simbolo_ok ++ [if branchTaken then (v.simbolo_ok : ℤ) else 0]
    simbolo_no := seqs.simbolo_no ++ [if branchTaken then (v.simbolo_no : ℤ) else 0]
    string_ok := seqs.string_ok ++ [if branchTaken then (v.string_ok : ℤ) else 0]
    string_no := seqs.string_no ++ [if branchTaken then (v.string_no : ℤ) else 0] }

/-- See `appendOkNoSeqs`; the appends happen only while a transfer is
active (infer.py:1631, 1640). -/
def appendOkNoCounts (s : State) (branchTaken : Bool) (v : OkNoCounts) : State :=
  if s.current_transfer_active then
    { s with seqs := appendOkNoSeqs s.seqs branchTaken v }
  else s

/-- `self.frame_count += 1` (infer.py:1588). -/
def bumpFrameCount (s : State) : State := { s with frame_count := s.frame_count + 1 }

/-- `process_frame` (infer.py:1331-1652) restricted to the modelled state:
the ROI branch, the frame counter increment, and the OK/NO tail. On an
ROI-absent frame `stats["simbolos"]` keeps its initial value 0, so the OK/NO
branch condition is false there. `simbolos_result` truthiness is abstracted
as `simbolosEnabled && simbolosValid`. -/
def processFrame (s : State) (inp : FrameInput) : State :=
  match inp with
  | some r =>
    let step := presentRoiUpdate s r
    appendOkNoCounts (bumpFrameCount step.1)
      (decide ((0 : ℤ) < step.2) && (r.simbolosEnabled && r.simbolosValid)) r.okNo
  | none =>
    appendOkNoCounts (bumpFrameCount (absentRoiUpdate s)) false ⟨0, 0, 0, 0, 0, 0⟩

/-- Process a sequence of frames in order. -/
def runFrames (s : State) (inputs : List FrameInput) : State :=
  inputs.foldl processFrame s

/-! ## Statistics summary (`get_final_statistics_summary`, infer.py:1841-2026) -/

/-- The `most_frequent_error` entry of the summary. -/
structure MostFrequentError where
  errClass : String
  errType : String
  count : ℤ
  percentage : ℚ
deriving DecidableEq, Repr

/-- The summary fields the error-handling logic produces; the per-class
roll-up tables (`transfers_by_class`, `objects_per_transfer`) are
display-only aggregations of the same sums and are omitted. -/
structure StatisticsSummary where
  total_transfers_evaluated : ℕ
  most_frequent_error : MostFrequentError
deriving DecidableEq, Repr

/-- The `error_counts` dict (infer.py:1989-1995) in insertion order. -/
def errorCounts (hist : List TransferRecord) : List (String × ℤ) :=
  [("fifa_no", (hist.map (fun t => t.fifa_no)).sum),
   ("simbolo_no", (hist.map (fun t => t.simbolo_no)).sum),
   ("string_no", (hist.map (fun t => t.string_no)).sum),
   ("smudge", (hist.map (fun t => t.smudge_total)).sum),
   ("blackdot", (hist.map (fun t => t.blackdot_total)).sum)]

/-- Python `max(error_counts, key=error_counts.get)`: the first key (in
insertion order) holding the maximal value. -/
def maxByValue (p : String × ℤ) (l : List (String × ℤ)) : String × ℤ :=
  l.foldl (fun best q => if best.2 < q.2 then q else best) p

/-- The `class_name_map` display names (infer.py:2006-2012). -/
def classNameDisplay (k : String) : String :=
  if k = "fifa_no" then "FIFA"
  else if k = "simbolo_no" then "Simbolo"
  else if k = "string_no" then "String"
  else if k = "smudge" then "Smudge"
  else if k = "blackdot" then "BlackDot"
  else k

/-- `get_final_statistics_summary` (infer.py:1841-2026): the empty-history
placeholder, and otherwise the most frequent error with its percentage,
guarded by `total_errors > 0` before dividing. The substring test
`"_no" in key` is evaluated over the five fixed keys. -/
def getFinalStatisticsSummary (hist : List TransferRecord) : StatisticsSummary :=
  if hist.length = 0 then
    { total_transfers_evaluated := 0
      most_frequent_error :=
        { errClass := "Nenhuma", errType := "N/A", count := 0, percentage := 0 } }
  else
    let ec := errorCounts hist
    let best := maxByValue ("fifa_no", (hist.map (fun t => t.fifa_no)).sum) ec.tail
    let totalErrors : ℤ := (ec.map (fun p => p.2)).sum
    { total_transfers_evaluated := hist.length
      most_frequent_error :=
        { errClass := classNameDisplay best.1
          errType :=
            if best.1 = "fifa_no" ∨ best.1 = "simbolo_no" ∨ best.1 = "string_no" then "NO"
            else "Erro"
          count := best.2
          percentage :=
            if 0 < totalErrors then (best.2 : ℚ) / (totalErrors : ℚ) * 100 else 0 } }

/-! ## Concrete inputs used in the scenario theorems -/

/-- An ROI-present frame on which all three sub-detector models are disabled
and nothing is detected. -/
def presentFrameNoDet : FrameInput :=
  some { smudgeEnabled := false, smudgeValid := false, smudgeRaw := 0
         simbolosEnabled := false, simbolosValid := false, simbolosRaw := 0
         blackdotEnabled := false, blackdotValid := false, blackdotRaw := 0
         dets := ⟨[], [], []⟩, detKeysNonempty := false
         okNo := ⟨0, 0, 0, 0, 0, 0⟩ }

/-- Scenario A input: ROI present for 20 consecutive frames, then absent for
10 consecutive frames. -/
def scenarioFrames : List FrameInput :=
  List.replicate 20 presentFrameNoDet ++ List.replicate 10 (none : FrameInput)

/-- Scenario C input: one class-A (smudge) detection and one class-B
detection with sub-class id 1 (`FIFA_OK`) whose boxes have IOU 0.5. -/
def fifaOverlapInput : DetectionsByClass :=
  ⟨[⟨(0, 0, 10, 10), 9/10, none⟩], [⟨(0, 0, 10, 5), 9/10, some 1⟩], []⟩

/-- Scenario B input (class-A box `(0,0,10,10)`, class-C box `(5,5,15,15)`),
with the two confidences left free. -/
def scenarioBInput (confA confC : ℚ) : DetectionsByClass :=
  ⟨[⟨(0, 0, 10, 10), confA, none⟩], [], [⟨(5, 5, 15, 15), confC, none⟩]⟩

/-- A class-A detection whose box merely touches a class-C box on an edge. -/
def touchingInput : DetectionsByClass :=
  ⟨[⟨(0, 0, 10, 10), 9/10, none⟩], [], [⟨(10, 0, 20, 10), 8/10, none⟩]⟩

/-- A class-A detection fully disjoint from a class-C detection. -/
def disjointInput : DetectionsByClass :=
  ⟨[⟨(0, 0, 10, 10), 1, none⟩], [], [⟨(20, 20, 30, 30), 1, none⟩]⟩

/-! ## Geometry lemmas -/

/-- Unfolding of the completely-outside predicate. -/
theorem outside_eq_true_iff (b1 b2 : Box) :
    isBoxCompletelyOutside b1 b2 = true ↔
      (b1.2.2.1 ≤ b2.1 ∨ b2.2.2.1 ≤ b1.1 ∨ b1.2.2.2 ≤ b2.2.1 ∨ b2.2.2.2 ≤ b1.2.1) := by
  simp [isBoxCompletelyOutside, or_assoc]

/-- A completely-outside pair has `_calculate_iou` equal to 0. -/
theorem calculateIou_eq_zero_of_outside (b1 b2 : Box)
    (h : isBoxCompletelyOutside b1 b2 = true) : calculateIou b1 b2 = 0 := by
  rw [outside_eq_true_iff] at h
  simp only [calculateIou]
  split_ifs with hg hu
  · rfl
  · exfalso; push_neg at hg; omega
  · rfl

/-- A completely-outside pair has `compute_iou` equal to 0 (touching boxes
pass the strict guard but give a zero intersection area). -/
theorem computeIou_eq_zero_of_outside (b1 b2 : Box)
    (h : isBoxCompletelyOutside b1 b2 = true) : computeIou b1 b2 = 0 := by
  rw [outside_eq_true_iff] at h
  simp only [computeIou]
  split_ifs with hg hu
  · rfl
  · have hz : (min b1.2.2.1 b2.2.2.1 - max b1.1 b2.1) *
        (min b1.2.2.2 b2.2.2.2 - max b1.2.1 b2.2.1) = 0 := by
      rcases h with h | h | h | h
      · have hw : min b1.2.2.1 b2.2.2.1 - max b1.1 b2.1 = 0 := by omega
        rw [hw, zero_mul]
      · have hw : min b1.2.2.1 b2.2.2.1 - max b1.1 b2.1 = 0 := by omega
        rw [hw, zero_mul]
      · have hw : min b1.2.2.2 b2.2.2.2 - max b1.2.1 b2.2.1 = 0 := by omega
        rw [hw, mul_zero]
      · have hw : min b1.2.2.2 b2.2.2.2 - max b1.2.1 b2.2.1 = 0 := by omega
        rw [hw, mul_zero]
    rw [hz]
    norm_num
  · rfl

/-- A positive `_calculate_iou` forces the strict-disjointness test to fail. -/
theorem outside_eq_false_of_iou_ne_zero (b1 b2 : Box)
    (h : calculateIou b1 b2 ≠ 0) : isBoxCompletelyOutside b1 b2 = false := by
  by_contra hc
  rw [Bool.not_eq_false] at hc
  exact h (calculateIou_eq_zero_of_outside b1 b2 hc)

/-- `_calculate_iou` lands in `[0,1]` on boxes with ordered coordinates. -/
theorem calculateIou_mem_unit (b1 b2 : Box)
    (h1 : orderedBox b1) (h2 : orderedBox b2) :
    0 ≤ calculateIou b1 b2 ∧ calculateIou b1 b2 ≤ 1 := by
  obtain ⟨x11, y11, x21, y21⟩ := b1
  obtain ⟨x12, y12, x22, y22⟩ := b2
  obtain ⟨ha, hb⟩ := h1
  obtain ⟨hc, hd⟩ := h2
  simp only [orderedBox] at ha hb hc hd
  simp only [calculateIou]
  split_ifs with hg hu
  · norm_num
  · push_neg at hg
    obtain ⟨hx, hy⟩ := hg
    set w : ℤ := min x21 x22 - max x11 x12 with hw
    set ht : ℤ := min y21 y22 - max y11 y12 with hth
    have hwpos : 0 < w := by omega
    have htpos : 0 < ht := by omega
    have hw1 : w ≤ x21 - x11 := by omega
    have hh1 : ht ≤ y21 - y11 := by omega
    have hw2 : w ≤ x22 - x12 := by omega
    have hh2 : ht ≤ y22 - y12 := by omega
    have hint1 : w * ht ≤ (x21 - x11) * (y21 - y11) := by nlinarith
    have hint2 : w * ht ≤ (x22 - x12) * (y22 - y12) := by nlinarith
    have hintpos : 0 < w * ht := mul_pos hwpos htpos
    constructor
    · apply div_nonneg
      · exact_mod_cast le_of_lt hintpos
      · exact_mod_cast le_of_lt hu
    · rw [div_le_one (by exact_mod_cast hu)]
      have hle : w * ht ≤ (x21 - x11) * (y21 - y11) + (x22 - x12) * (y22 - y12) - w * ht := by
        nlinarith
      exact_mod_cast hle
  · norm_num

/-- `compute_iou` lands in `[0,1]` on boxes with ordered coordinates. -/
theorem computeIou_mem_unit (b1 b2 : Box)
    (h1 : orderedBox b1) (h2 : orderedBox b2) :
    0 ≤ computeIou b1 b2 ∧ computeIou b1 b2 ≤ 1 := by
  obtain ⟨x11, y11, x21, y21⟩ := b1
  obtain ⟨x12, y12, x22, y22⟩ := b2
  obtain ⟨ha, hb⟩ := h1
  obtain ⟨hc, hd⟩ := h2
  simp only [orderedBox] at ha hb hc hd
  simp only [computeIou]
  split_ifs with hg hu
  · norm_num
  · push_neg at hg
    obtain ⟨hx, hy⟩ := hg
    set w : ℤ := min x21 x22 - max x11 x12 with hw
    set ht : ℤ := min y21 y22 - max y11 y12 with hth
    have hwnn : 0 ≤ w := by omega
    have htnn : 0 ≤ ht := by omega
    have hw1 : w ≤ x21 - x11 := by omega
    have hh1 : ht ≤ y21 - y11 := by omega
    have hw2 : w ≤ x22 - x12 := by omega
    have hh2 : ht ≤ y22 - y12 := by omega
    have hint1 : w * ht ≤ (x21 - x11) * (y21 - y11) := by nlinarith
    have hint2 : w * ht ≤ (x22 - x12) * (y22 - y12) := by nlinarith
    have hintnn : 0 ≤ w * ht := mul_nonneg hwnn htnn
    constructor
    · apply div_nonneg
      · exact_mod_cast hintnn
      · exact_mod_cast le_of_lt hu
    · rw [div_le_one (by exact_mod_cast hu)]
      have hle : w * ht ≤ (x21 - x11) * (y21 - y11) + (x22 - x12) * (y22 - y12) - w * ht := by
        nlinarith
      exact_mod_cast hle
  · norm_num

/-- `_calculate_iou` is 0 on a pair of ordered zero-area boxes (the zero
union never reaches the division). -/
theorem calculateIou_eq_zero_of_degenerate (b1 b2 : Box)
    (h1 : orderedBox b1) (h2 : orderedBox b2)
    (hz1 : boxArea b1 = 0) (hz2 : boxArea b2 = 0) :
    calculateIou b1 b2 = 0 := by
  obtain ⟨x11, y11, x21, y21⟩ := b1
  obtain ⟨x12, y12, x22, y22⟩ := b2
  obtain ⟨ha, hb⟩ := h1
  obtain ⟨hc, hd⟩ := h2
  simp only [orderedBox, boxArea] at ha hb hc hd hz1 hz2
  simp only [calculateIou]
  split_ifs with hg hu
  · rfl
  · exfalso
    push_neg at hg
    obtain ⟨hx, hy⟩ := hg
    set w : ℤ := min x21 x22 - max x11 x12 with hw
    set ht : ℤ := min y21 y22 - max y11 y12 with hth
    have hwpos : 0 < w := by omega
    have htpos : 0 < ht := by omega
    have hw1 : w ≤ x21 - x11 := by omega
    have hh1 : ht ≤ y21 - y11 := by omega
    have hint1 : w * ht ≤ (x21 - x11) * (y21 - y11) := by nlinarith
    have hintpos : 0 < w * ht := mul_pos hwpos htpos
    omega
  · rfl

/-- `compute_iou` is 0 on a pair of ordered zero-area boxes. -/
theorem computeIou_eq_zero_of_degenerate (b1 b2 : Box)
    (h1 : orderedBox b1) (h2 : orderedBox b2)
    (hz1 : boxArea b1 = 0) (hz2 : boxArea b2 = 0) :
    computeIou b1 b2 = 0 := by
  obtain ⟨x11, y11, x21, y21⟩ := b1
  obtain ⟨x12, y12, x22, y22⟩ := b2
  obtain ⟨ha, hb⟩ := h1
  obtain ⟨hc, hd⟩ := h2
  simp only [orderedBox, boxArea] at ha hb hc hd hz1 hz2
  simp only [computeIou]
  split_ifs with hg hu
  · rfl
  · exfalso
    push_neg at hg
    obtain ⟨hx, hy⟩ := hg
    set w : ℤ := min x21 x22 - max x11 x12 with hw
    set ht : ℤ := min y21 y22 - max y11 y12 with hth
    have hwnn : 0 ≤ w := by omega
    have htnn : 0 ≤ ht := by omega
    have hw1 : w ≤ x21 - x11 := by omega
    have hh1 : ht ≤ y21 - y11 := by omega
    have hw2 : w ≤ x22 - x12 := by omega
    have hh2 : ht ≤ y22 - y12 := by omega
    have hint1 : w * ht ≤ (x21 - x11) * (y21 - y11) := by nlinarith
    have hintnn : 0 ≤ w * ht := mul_nonneg hwnn htnn
    omega
  · rfl

/-- Two proper boxes that merely touch are classified completely outside. -/
theorem touching_imp_outside (b1 b2 : Box) (h1 : properBox b1) (h2 : properBox b2)
    (ht : touchesWithZeroArea b1 b2) : isBoxCompletelyOutside b1 b2 = true := by
  obtain ⟨x11, y11, x21, y21⟩ := b1
  obtain ⟨x12, y12, x22, y22⟩ := b2
  obtain ⟨ha, hb⟩ := h1
  obtain ⟨hc, hd⟩ := h2
  simp only [properBox] at ha hb hc hd
  rw [outside_eq_true_iff]
  simp only [touchesWithZeroArea] at ht
  dsimp only at ht ⊢
  rcases ht with ⟨hz, _⟩ | ⟨hz, _⟩ <;> omega

/-! ## Claim theorems: C10 and C9 -/

/-- C10: the IOU functions used by the resolver are total. They return 0
whenever the two boxes are disjoint (including merely-touching pairs, where
the union could only be zero in the degenerate case), return 0 on ordered
zero-area boxes instead of dividing by the zero union, and always produce a
value in `[0,1]` for boxes with ordered coordinates. -/
theorem c10_iou_total :
    (∀ b1 b2 : Box, isBoxCompletelyOutside b1 b2 = true →
        calculateIou b1 b2 = 0 ∧ computeIou b1 b2 = 0)
  ∧ (∀ b1 b2 : Box, orderedBox b1 → orderedBox b2 →
        (0 ≤ calculateIou b1 b2 ∧ calculateIou b1 b2 ≤ 1)
        ∧ (0 ≤ computeIou b1 b2 ∧ computeIou b1 b2 ≤ 1))
  ∧ (∀ b1 b2 : Box, orderedBox b1 → orderedBox b2 → boxArea b1 = 0 → boxArea b2 = 0 →
        calculateIou b1 b2 = 0 ∧ computeIou b1 b2 = 0) := by
  refine ⟨fun b1 b2 h => ⟨?_, ?_⟩, fun b1 b2 h1 h2 => ⟨?_, ?_⟩,
    fun b1 b2 h1 h2 hz1 hz2 => ⟨?_, ?_⟩⟩
  · exact calculateIou_eq_zero_of_outside b1 b2 h
  · exact computeIou_eq_zero_of_outside b1 b2 h
  · exact calculateIou_mem_unit b1 b2 h1 h2
  · exact computeIou_mem_unit b1 b2 h1 h2
  · exact calculateIou_eq_zero_of_degenerate b1 b2 h1 h2 hz1 hz2
  · exact computeIou_eq_zero_of_degenerate b1 b2 h1 h2 hz1 hz2

/-- Witness for C10 at concrete boxes: a disjoint pair, an overlapping
ordered pair, and a degenerate ordered pair. -/
theorem c10_iou_total_witness :
    (calculateIou (0, 0, 4, 4) (8, 0, 12, 4) = 0 ∧ computeIou (0, 0, 4, 4) (8, 0, 12, 4) = 0)
  ∧ ((0 ≤ calculateIou (0, 0, 2, 2) (1, 1, 3, 3) ∧ calculateIou (0, 0, 2, 2) (1, 1, 3, 3) ≤ 1)
      ∧ (0 ≤ computeIou (0, 0, 2, 2) (1, 1, 3, 3) ∧ computeIou (0, 0, 2, 2) (1, 1, 3, 3) ≤ 1))
  ∧ (calculateIou (0, 0, 0, 5) (0, 2, 0, 9) = 0 ∧ computeIou (0, 0, 0, 5) (0, 2, 0, 9) = 0) :=
  ⟨c10_iou_total.1 (0, 0, 4, 4) (8, 0, 12, 4) (by decide),
   c10_iou_total.2.1 (0, 0, 2, 2) (1, 1, 3, 3) (by decide) (by decide),
   c10_iou_total.2.2 (0, 0, 0, 5) (0, 2, 0, 9) (by decide) (by decide) (by decide) (by decide)⟩

/-- C9: boxes that merely touch (shared edge or corner, zero-area
intersection) are classified completely outside by the disjointness test; in
particular a class-A detection whose box is edge-adjacent to a class-C box
is retained by the exclusive pass together with the class-C detection. -/
theorem c9_touching_retained :
    (∀ b1 b2 : Box, properBox b1 → properBox b2 → touchesWithZeroArea b1 b2 →
        isBoxCompletelyOutside b1 b2 = true)
  ∧ (applyExclusiveFiltering touchingInput).smudge = [⟨(0, 0, 10, 10), 9/10, none⟩]
  ∧ (applyExclusiveFiltering touchingInput).blackdot = [⟨(10, 0, 20, 10), 8/10, none⟩] := by
  refine ⟨touching_imp_outside, ?_, ?_⟩ <;> decide

/-- Witness for C9 at the concrete edge-adjacent pair. -/
theorem c9_touching_retained_witness :
    isBoxCompletelyOutside (0, 0, 10, 10) (10, 0, 20, 10) = true :=
  c9_touching_retained.1 (0, 0, 10, 10) (10, 0, 20, 10) (by decide) (by decide)
    (by left; constructor <;> decide)

/-! ## Resolver lemmas -/

/-- `insertDet` permutes its inputs. -/
theorem insertDet_perm (a : ExDet) (l : List ExDet) : List.Perm (insertDet a l) (a :: l) := by
  induction l with
  | nil => simp [insertDet]
  | cons b t ih =>
    simp only [insertDet]
    split_ifs with h
    · exact List.Perm.refl _
    · exact (ih.cons b).trans (List.Perm.swap a b t)

/-- The stable sort is a permutation of the candidate list. -/
theorem sortDets_perm (l : List ExDet) : List.Perm (sortDets l) l := by
  induction l with
  | nil => simp [sortDets]
  | cons a t ih => exact (insertDet_perm a (sortDets t)).trans (ih.cons a)

/-- The greedy acceptance loop only collects candidates from its input. -/
theorem mem_foldl_exclusiveStep (of : List Box) :
    ∀ (l acc : List ExDet) (d : ExDet),
      d ∈ l.foldl (exclusiveStep of) acc → d ∈ acc ∨ d ∈ l := by
  intro l
  induction l with
  | nil => intro acc d h; exact Or.inl h
  | cons a t ih =>
    intro acc d h
    simp only [List.foldl_cons] at h
    rcases ih _ d h with h1 | h1
    · unfold exclusiveStep at h1
      split_ifs at h1
      · exact Or.inl h1
      · exact Or.inl h1
      · rcases List.mem_append.1 h1 with h4 | h4
        · exact Or.inl h4
        · simp only [List.mem_singleton] at h4
          exact Or.inr (by rw [h4]; exact List.mem_cons_self _ _)
    · exact Or.inr (List.mem_cons_of_mem a h1)

/-- Every smudge detection accepted by the exclusive loop passed the
completely-outside check against the whole flat list of non-smudge boxes. -/
theorem smudge_outside_foldl (of : List Box) :
    ∀ (l acc : List ExDet),
      (∀ d ∈ acc, d.is_fifa_smudge = true →
        (of.all fun b => isBoxCompletelyOutside d.bbox b) = true) →
      ∀ d ∈ l.foldl (exclusiveStep of) acc, d.is_fifa_smudge = true →
        (of.all fun b => isBoxCompletelyOutside d.bbox b) = true := by
  intro l
  induction l with
  | nil => intro acc hacc d hd; exact hacc d hd
  | cons a t ih =>
    intro acc hacc d hd
    simp only [List.foldl_cons] at hd
    refine ih _ ?_ d hd
    intro e he hf
    unfold exclusiveStep at he
    split_ifs at he with h2 h3
    · exact hacc e he hf
    · exact hacc e he hf
    · rcases List.mem_append.1 he with h4 | h4
      · exact hacc e h4 hf
      · simp only [List.mem_singleton] at h4
        subst h4
        simp only [hf, Bool.true_and, Bool.not_eq_true', Bool.not_eq_false] at h2
        exact h2

/-- `mkExDet` records the class it was given. -/
theorem mkExDet_className (c : ClassName) (d : Det) : (mkExDet c d).className = c := rfl

/-- `mkExDet` keeps the detection's box. -/
theorem mkExDet_bbox (c : ClassName) (d : Det) : (mkExDet c d).bbox = d.bbox := rfl

/-- Characterization of a smudge detection in the exclusive-pass output: its
box comes from an input smudge detection and is completely outside every
`simbolos` and every `blackdot` candidate box. -/
theorem applyExclusive_smudge_mem (dbc : DetectionsByClass) (d : Det)
    (hd : d ∈ (applyExclusiveFiltering dbc).smudge) :
    (∃ d0 ∈ dbc.smudge, d0.bbox = d.bbox) ∧
    ∀ b : Box, (b ∈ dbc.simbolos.map Det.bbox ∨ b ∈ dbc.blackdot.map Det.bbox) →
      isBoxCompletelyOutside d.bbox b = true := by
  simp only [applyExclusiveFiltering, regroupByClass] at hd
  obtain ⟨e, he, rfl⟩ := List.mem_map.1 hd
  obtain ⟨hmem, hcls⟩ := List.mem_filter.1 he
  have hclsEq : e.className = ClassName.smudge := of_decide_eq_true hcls
  have hsorted : e ∈ sortDets (allExDets dbc) :=
    (mem_foldl_exclusiveStep _ _ _ _ hmem).resolve_left (by simp)
  have hall : e ∈ allExDets dbc := (sortDets_perm _).mem_iff.1 hsorted
  have hsmudgeOrig : ∃ d0 ∈ dbc.smudge, mkExDet ClassName.smudge d0 = e := by
    simp only [allExDets, List.mem_append, List.mem_map] at hall
    rcases hall with (⟨d0, hd0, rfl⟩ | ⟨d0, hd0, rfl⟩) | ⟨d0, hd0, rfl⟩
    · exact ⟨d0, hd0, rfl⟩
    · rw [mkExDet_className] at hclsEq; exact absurd hclsEq (by simp)
    · rw [mkExDet_className] at hclsEq; exact absurd hclsEq (by simp)
  obtain ⟨d0, hd0, hEq⟩ := hsmudgeOrig
  have hfifa : e.is_fifa_smudge = true := by rw [← hEq]; rfl
  have houts := smudge_outside_foldl _ _ [] (by simp) e hmem hfifa
  constructor
  · exact ⟨d0, hd0, by rw [← hEq]; rfl⟩
  · intro b hb
    refine List.all_eq_true.1 houts b ?_
    have hbmem : ∃ d1 ∈ dbc.simbolos.map (mkExDet ClassName.simbolos) ++
        dbc.blackdot.map (mkExDet ClassName.blackdot), d1.bbox = b := by
      rcases hb with hb | hb
      · obtain ⟨d1, hd1, rfl⟩ := List.mem_map.1 hb
        exact ⟨mkExDet ClassName.simbolos d1, List.mem_append_left _ (List.mem_map_of_mem _ hd1),
          rfl⟩
      · obtain ⟨d1, hd1, rfl⟩ := List.mem_map.1 hb
        exact ⟨mkExDet ClassName.blackdot d1, List.mem_append_right _ (List.mem_map_of_mem _ hd1),
          rfl⟩
    obtain ⟨d1, hd1, rfl⟩ := hbmem
    have hd1all : d1 ∈ allExDets dbc := by
      simp only [allExDets, List.mem_append] at hd1 ⊢
      tauto
    have hd1sorted : d1 ∈ sortDets (allExDets dbc) := (sortDets_perm _).mem_iff.2 hd1all
    have hd1ns : d1.is_fifa_smudge = false := by
      simp only [List.mem_append, List.mem_map] at hd1
      rcases hd1 with ⟨d2, _, rfl⟩ | ⟨d2, _, rfl⟩ <;> rfl
    refine List.mem_map_of_mem _ (List.mem_filter.2 ⟨hd1sorted, ?_⟩)
    rw [hd1ns]
    rfl

/-! ## Claim theorems: C4 and C2 -/

/-- C4: in the exclusive-class pass a class-A (smudge) detection is retained
only if its box is completely disjoint from every other class's box in the
whole candidate set, independently of all confidence values; in particular a
class-A box `(0,0,10,10)` facing a class-C box `(5,5,15,15)` is always
dropped. -/
theorem c4_strict_disjointness :
    (∀ (dbc : DetectionsByClass) (d : Det), d ∈ (applyExclusiveFiltering dbc).smudge →
       ∀ b : Box, (b ∈ dbc.simbolos.map Det.bbox ∨ b ∈ dbc.blackdot.map Det.bbox) →
         isBoxCompletelyOutside d.bbox b = true)
  ∧ (∀ confA confC : ℚ,
      (applyExclusiveFiltering (scenarioBInput confA confC)).smudge = []) := by
  constructor
  · exact fun dbc d hd => (applyExclusive_smudge_mem dbc d hd).2
  · intro confA confC
    rw [List.eq_nil_iff_forall_not_mem]
    intro d hd
    obtain ⟨⟨d0, hd0, hbox⟩, houts⟩ := applyExclusive_smudge_mem _ d hd
    have hb : ((5, 5, 15, 15) : Box) ∈ (scenarioBInput confA confC).blackdot.map Det.bbox := by
      simp [scenarioBInput]
    have hout := houts _ (Or.inr hb)
    rw [← hbox] at hout
    simp only [scenarioBInput, List.mem_singleton] at hd0
    subst hd0
    dsimp only at hout
    exact absurd hout (by decide)

/-- Witness for C4: with the other class's box fully disjoint, a smudge
detection is retained and the disjointness conclusion holds. -/
theorem c4_strict_disjointness_witness :
    isBoxCompletelyOutside (Det.bbox ⟨(0, 0, 10, 10), 1, none⟩) (20, 20, 30, 30) = true :=
  c4_strict_disjointness.1 disjointInput ⟨(0, 0, 10, 10), 1, none⟩ (by decide)
    (20, 20, 30, 30) (Or.inr (by decide))

/-- C2 counterexample: a class-B detection with sub-class id 1 (`FIFA_OK`)
and a class-A detection with IOU 0.5 are NOT both retained — the class-A
detection is dropped by the completely-outside rule in both resolver
passes, before the coexistence exception is consulted. -/
theorem c2_counterexample :
    (applyExclusiveFiltering fifaOverlapInput).smudge = []
  ∧ (applyExclusiveFiltering fifaOverlapInput).simbolos = [⟨(0, 0, 10, 5), 9/10, some 1⟩]
  ∧ (filterOverlappingDetections (3/10) (applyExclusiveFiltering fifaOverlapInput)).smudge = []
  ∧ (filterOverlappingDetections (3/10) fifaOverlapInput).smudge = []
  ∧ calculateIou (0, 0, 10, 10) (0, 0, 10, 5) = 1/2 := by
  refine ⟨?_, ?_, ?_, ?_, ?_⟩ <;> decide

/-- C2 amended: for any input made of one class-A detection and one class-B
`FIFA_OK` detection whose boxes have IOU 0.5, the exclusive pass retains only
the class-B detection and drops the class-A one, whatever the confidences:
the strict disjointness rule precedes the coexistence exception. -/
theorem c2_amended_fifa_exclusion : ∀ (bA bB : Box) (cA cB : ℚ),
    calculateIou bA bB = 1/2 →
    (applyExclusiveFiltering ⟨[⟨bA, cA, none⟩], [⟨bB, cB, some 1⟩], []⟩).smudge = []
  ∧ (applyExclusiveFiltering ⟨[⟨bA, cA, none⟩], [⟨bB, cB, some 1⟩], []⟩).simbolos
      = [⟨bB, cB, some 1⟩] := by
  intro bA bB cA cB hiou
  have hout : isBoxCompletelyOutside bA bB = false :=
    outside_eq_false_of_iou_ne_zero bA bB (by rw [hiou]; norm_num)
  have hdetLe : detLe (mkExDet ClassName.smudge ⟨bA, cA, none⟩)
      (mkExDet ClassName.simbolos ⟨bB, cB, some 1⟩) = false := by
    simp [detLe, mkExDet, classPriorityIndex]
  have hsort : sortDets (allExDets ⟨[⟨bA, cA, none⟩], [⟨bB, cB, some 1⟩], []⟩) =
      [mkExDet ClassName.simbolos ⟨bB, cB, some 1⟩, mkExDet ClassName.smudge ⟨bA, cA, none⟩] := by
    simp only [allExDets, List.map_cons, List.map_nil, List.nil_append, List.append_nil,
      List.cons_append, sortDets, insertDet]
    rw [hdetLe]
    simp [insertDet]
  constructor
  · rw [List.eq_nil_iff_forall_not_mem]
    intro d hd
    obtain ⟨⟨d0, hd0, hbox⟩, houts⟩ := applyExclusive_smudge_mem _ d hd
    have hb : bB ∈ (DetectionsByClass.mk [⟨bA, cA, none⟩] [⟨bB, cB, some 1⟩] []).simbolos.map
        Det.bbox := by simp
    have hout2 := houts _ (Or.inl hb)
    rw [← hbox] at hout2
    simp only [List.mem_singleton] at hd0
    subst hd0
    dsimp only at hout2
    rw [hout2] at hout
    exact Bool.noConfusion hout
  · simp only [applyExclusiveFiltering]
    rw [hsort]
    simp [exclusiveStep, regroupByClass, mkExDet, hout]

/-- Witness for the amended C2 at the concrete IOU-0.5 pair. -/
theorem c2_amended_fifa_exclusion_witness :
    (applyExclusiveFiltering ⟨[⟨(0, 0, 10, 10), 9/10, none⟩],
        [⟨(0, 0, 10, 5), 9/10, some 1⟩], []⟩).smudge = []
  ∧ (applyExclusiveFiltering ⟨[⟨(0, 0, 10, 10), 9/10, none⟩],
        [⟨(0, 0, 10, 5), 9/10, some 1⟩], []⟩).simbolos = [⟨(0, 0, 10, 5), 9/10, some 1⟩] :=
  c2_amended_fifa_exclusion (0, 0, 10, 10) (0, 0, 10, 5) (9/10) (9/10) (by decide)

/-! ## Stabilizer lemmas -/

/-- `pyRound` is exact on integers. -/
theorem pyRound_intCast (n : ℤ) : pyRound (n : ℚ) = n := by
  simp [pyRound]

/-- `pyRound` moves its argument by at most one half. -/
theorem pyRound_close (q : ℚ) : |(pyRound q : ℚ) - q| ≤ 1/2 := by
  have h1 : ((⌊q⌋ : ℤ) : ℚ) ≤ q := Int.floor_le q
  have h2 : q < (⌊q⌋ : ℚ) + 1 := Int.lt_floor_add_one q
  unfold pyRound
  dsimp only
  split_ifs with ha hb hc
  · rw [abs_le]; constructor <;> linarith
  · push_cast
    rw [abs_le]; constructor <;> linarith
  · rw [abs_le]; constructor <;> linarith
  · push_cast
    rw [abs_le]
    push_neg at ha hb
    constructor <;> linarith

/-- The trimmed history keeps the last elements: reading the second-to-last
entry of the trimmed, extended history yields the last raw count of the
previous history whenever the window is at least 2. -/
theorem trimHistory_second_to_last (window : ℕ) (history : List ℕ) (currentCount : ℕ)
    (hw : 2 ≤ window) (hne : history ≠ []) :
    (trimHistory window (history ++ [currentCount])).getD
        ((trimHistory window (history ++ [currentCount])).length - 2) 0 =
      history.getD (history.length - 1) 0 := by
  have hlen : (history ++ [currentCount]).length = history.length + 1 := by simp
  have hpos : 1 ≤ history.length := List.length_pos.2 hne
  unfold trimHistory
  split_ifs with h
  · have hdlen : ((history ++ [currentCount]).drop ((history ++ [currentCount]).length - window)).length
        = window := by
      rw [List.length_drop]
      omega
    rw [List.getD_eq_getElem?_getD, List.getElem?_drop, hdlen]
    rw [List.getD_eq_getElem?_getD]
    have hidx : (history ++ [currentCount]).length - window + (window - 2) = history.length - 1 := by
      omega
    rw [hidx]
    rw [List.getElem?_append, if_pos (by omega)]
  · rw [List.getD_eq_getElem?_getD, List.getD_eq_getElem?_getD, hlen]
    have hidx : history.length + 1 - 2 = history.length - 1 := by omega
    rw [hidx, List.getElem?_append, if_pos (by omega)]

/-- The trimmed, extended history always has at least two entries when the
window allows it and the previous history is nonempty. -/
theorem trimHistory_length_ge_two (window : ℕ) (history : List ℕ) (currentCount : ℕ)
    (hw : 2 ≤ window) (hne : history ≠ []) :
    2 ≤ (trimHistory window (history ++ [currentCount])).length := by
  have hpos : 1 ≤ history.length := List.length_pos.2 hne
  unfold trimHistory
  split_ifs with h
  · rw [List.length_drop]; simp at h ⊢; omega
  · simp at h ⊢; omega

/-! ## Claim theorems: C3 -/

/-- C3 counterexample: on the raw count sequence `[0, 10, 10]` the stored
history holds 2 entries before the third call, yet the stabilized outputs
jump from 1 to 8 — the claimed bound `|s[t]-s[t-1]| ≤ max(1, 0.5*s[t-1])`
fails because the jump limiter compares against the previous RAW count, not
the previous stabilized output. -/
theorem c3_counterexample :
    (stabilizeRun 8 [0, 10, 10]).2 = [0, 1, 8]
  ∧ (stabilizeRun 8 [0, 10]).1 = [0, 10]
  ∧ ¬ (|(8 : ℚ) - 1| ≤ max 1 ((1 : ℚ) * (1/2))) := by
  refine ⟨by decide, by decide, by decide⟩

/-- C3 amended: once the history is nonempty (so it holds at least 2 entries
after the append) and the window is at least 2, the stabilized output is
within `max(1, 0.5*c) + 1/2` of the PREVIOUS RAW count `c` (the last stored
history entry); the extra `1/2` accounts for the final rounding. -/
theorem c3_bounded_step_amended (window : ℕ) (history : List ℕ) (currentCount : ℕ)
    (hw : 2 ≤ window) (hne : history ≠ []) :
    |((stabilizeDetectionCount window history currentCount).2 : ℚ) -
        ((history.getD (history.length - 1) 0 : ℕ) : ℚ)| ≤
      max 1 (((history.getD (history.length - 1) 0 : ℕ) : ℚ) * (1/2)) + 1/2 := by
  have hlen2 := trimHistory_length_ge_two window history currentCount hw hne
  have hprev := trimHistory_second_to_last window history currentCount hw hne
  set h2 := trimHistory window (history ++ [currentCount]) with hh2
  set n : ℕ := history.getD (history.length - 1) 0 with hn
  have hstep : (stabilizeDetectionCount window history currentCount).2 =
      pyRound (jumpLimited h2 (weightedMovingAverage h2)) := by
    simp only [stabilizeDetectionCount]
    rw [← hh2, if_pos (by omega)]
  rw [hstep]
  set w := weightedMovingAverage h2 with hwma
  have hprevq : ((h2.getD (h2.length - 2) 0 : ℕ) : ℚ) = (n : ℚ) := by
    rw [hprev]
  simp only [jumpLimited]
  rw [if_pos (by omega : 1 < h2.length), hprevq]
  have hmax1 : (1 : ℚ) ≤ max 1 ((n : ℚ) * (1/2)) := le_max_left _ _
  split_ifs with hclamp hdir
  · have hcast : ((n : ℚ) + 1) = (((n : ℤ) + 1 : ℤ) : ℚ) := by push_cast; ring
    rw [hcast, pyRound_intCast]
    have hval : ((((n : ℤ) + 1 : ℤ)) : ℚ) - (n : ℚ) = 1 := by push_cast; ring
    rw [hval, abs_one]
    linarith
  · have hcast : ((n : ℚ) + (-1)) = (((n : ℤ) - 1 : ℤ) : ℚ) := by push_cast; ring
    rw [hcast, pyRound_intCast]
    have hval : ((((n : ℤ) - 1 : ℤ)) : ℚ) - (n : ℚ) = -1 := by push_cast; ring
    rw [hval, abs_neg, abs_one]
    linarith
  · have hclose := pyRound_close w
    have hbound : |w - (n : ℚ)| ≤ max 1 ((n : ℚ) * (1/2)) := not_lt.mp hclamp
    calc |((pyRound w : ℤ) : ℚ) - (n : ℚ)|
        ≤ |((pyRound w : ℤ) : ℚ) - w| + |w - (n : ℚ)| := abs_sub_le _ w _
      _ ≤ 1/2 + max 1 ((n : ℚ) * (1/2)) := add_le_add hclose hbound
      _ = max 1 ((n : ℚ) * (1/2)) + 1/2 := by ring

/-- Witness for the amended C3: window 8, stored history `[0, 10]`, raw
count 10 — the output 8 is within `max(1, 0.5*10) + 1/2` of the previous raw
count 10. -/
theorem c3_bounded_step_amended_witness :
    |((stabilizeDetectionCount 8 [0, 10] 10).2 : ℚ) -
        ((([0, 10] : List ℕ).getD 1 0 : ℕ) : ℚ)| ≤
      max 1 (((([0, 10] : List ℕ).getD 1 0 : ℕ) : ℚ) * (1/2)) + 1/2 :=
  c3_bounded_step_amended 8 [0, 10] 10 (by decide) (by decide)

/-! ## Transfer-tracking lemmas -/

/-- `_finalize_transfer` increments `total_evaluated` by exactly 1 and
exactly one of `total_approved`, `total_rejected` by 1. -/
theorem finalizeTransfer_totals (s : State) :
    (finalizeTransfer s).total_evaluated = s.total_evaluated + 1
  ∧ (((finalizeTransfer s).total_approved = s.total_approved + 1
        ∧ (finalizeTransfer s).total_rejected = s.total_rejected)
     ∨ ((finalizeTransfer s).total_approved = s.total_approved
        ∧ (finalizeTransfer s).total_rejected = s.total_rejected + 1)) := by
  constructor
  · simp [finalizeTransfer]
  · by_cases h : (transferRecordOf s).approved
    · left; simp [finalizeTransfer, h]
    · right; simp [finalizeTransfer, h]

/-- The ROI-present branch never touches the running totals. -/
theorem presentRoiUpdate_totals (s : State) (r : RoiFrameData) :
    (presentRoiUpdate s r).1.total_evaluated = s.total_evaluated
  ∧ (presentRoiUpdate s r).1.total_approved = s.total_approved
  ∧ (presentRoiUpdate s r).1.total_rejected = s.total_rejected :=
  ⟨rfl, rfl, rfl⟩

/-- The OK/NO accumulation never touches the running totals. -/
theorem appendOkNoCounts_totals (s : State) (b : Bool) (v : OkNoCounts) :
    (appendOkNoCounts s b v).total_evaluated = s.total_evaluated
  ∧ (appendOkNoCounts s b v).total_approved = s.total_approved
  ∧ (appendOkNoCounts s b v).total_rejected = s.total_rejected := by
  unfold appendOkNoCounts
  split_ifs <;> exact ⟨rfl, rfl, rfl⟩

/-- Shape of the ROI-present transition. -/
theorem processFrame_some_eq (s : State) (r : RoiFrameData) :
    processFrame s (some r) = appendOkNoCounts (bumpFrameCount (presentRoiUpdate s r).1)
      (decide ((0 : ℤ) < (presentRoiUpdate s r).2) && (r.simbolosEnabled && r.simbolosValid))
      r.okNo := rfl

/-- Shape of the ROI-absent transition. -/
theorem processFrame_none_eq (s : State) :
    processFrame s none =
      appendOkNoCounts (bumpFrameCount (absentRoiUpdate s)) false ⟨0, 0, 0, 0, 0, 0⟩ := rfl

/-- One `process_frame` call leaves the three running totals unchanged, or
performs exactly one transfer closure updating them as
`_finalize_transfer` does. -/
theorem processFrame_totals (s : State) (inp : FrameInput) :
    ((processFrame s inp).total_evaluated = s.total_evaluated
      ∧ (processFrame s inp).total_approved = s.total_approved
      ∧ (processFrame s inp).total_rejected = s.total_rejected)
  ∨ ((processFrame s inp).total_evaluated = s.total_evaluated + 1
      ∧ (((processFrame s inp).total_approved = s.total_approved + 1
            ∧ (processFrame s inp).total_rejected = s.total_rejected)
         ∨ ((processFrame s inp).total_approved = s.total_approved
            ∧ (processFrame s inp).total_rejected = s.total_rejected + 1))) := by
  cases inp with
  | some r =>
    left
    rw [processFrame_some_eq]
    obtain ⟨ha1, ha2, ha3⟩ := appendOkNoCounts_totals (bumpFrameCount (presentRoiUpdate s r).1)
      (decide ((0 : ℤ) < (presentRoiUpdate s r).2) && (r.simbolosEnabled && r.simbolosValid))
      r.okNo
    obtain ⟨hp1, hp2, hp3⟩ := presentRoiUpdate_totals s r
    exact ⟨by rw [ha1]; exact hp1, by rw [ha2]; exact hp2, by rw [ha3]; exact hp3⟩
  | none =>
    rw [processFrame_none_eq]
    obtain ⟨ha1, ha2, ha3⟩ := appendOkNoCounts_totals (bumpFrameCount (absentRoiUpdate s))
      false ⟨0, 0, 0, 0, 0, 0⟩
    rw [ha1, ha2, ha3]
    show ((absentRoiUpdate s).total_evaluated = _ ∧ _ ∧ _) ∨ _
    simp only [absentRoiUpdate]
    split_ifs with h1
    · right
      exact finalizeTransfer_totals _
    · left
      exact ⟨rfl, rfl, rfl⟩

/-- The running-totals invariant is preserved along any frame sequence. -/
theorem runFrames_totals_inv (inputs : List FrameInput) :
    ∀ s : State, s.total_evaluated = s.total_approved + s.total_rejected →
      (runFrames s inputs).total_evaluated =
        (runFrames s inputs).total_approved + (runFrames s inputs).total_rejected := by
  induction inputs with
  | nil => intro s hs; exact hs
  | cons a t ih =>
    intro s hs
    have hstep := processFrame_totals s a
    refine ih (processFrame s a) ?_
    rcases hstep with ⟨h1, h2, h3⟩ | ⟨h1, ⟨h2, h3⟩ | ⟨h2, h3⟩⟩ <;> omega

/-! ## Claim theorems: C7, C5, C6 -/

/-- C7: starting from the initial state,
`total_evaluated = total_approved + total_rejected` holds after processing
any frame sequence; all three counters are non-decreasing across any frame;
and every transfer closure increments `total_evaluated` by exactly 1 and
exactly one of `total_approved`/`total_rejected` by 1. -/
theorem c7_running_totals :
    (∀ inputs : List FrameInput,
        (runFrames initState inputs).total_evaluated =
          (runFrames initState inputs).total_approved +
            (runFrames initState inputs).total_rejected)
  ∧ (∀ (s : State) (inp : FrameInput),
        s.total_evaluated ≤ (processFrame s inp).total_evaluated
      ∧ s.total_approved ≤ (processFrame s inp).total_approved
      ∧ s.total_rejected ≤ (processFrame s inp).total_rejected)
  ∧ (∀ s : State,
        (finalizeTransfer s).total_evaluated = s.total_evaluated + 1
      ∧ (((finalizeTransfer s).total_approved = s.total_approved + 1
            ∧ (finalizeTransfer s).total_rejected = s.total_rejected)
         ∨ ((finalizeTransfer s).total_approved = s.total_approved
            ∧ (finalizeTransfer s).total_rejected = s.total_rejected + 1))) := by
  refine ⟨fun inputs => runFrames_totals_inv inputs initState (by decide), ?_, finalizeTransfer_totals⟩
  intro s inp
  rcases processFrame_totals s inp with ⟨h1, h2, h3⟩ | ⟨h1, ⟨h2, h3⟩ | ⟨h2, h3⟩⟩ <;>
    refine ⟨by omega, by omega, by omega⟩

/-- C5 (Scenario A): with the ROI present for 20 consecutive frames and then
absent for 10 (`ABSENT_TO_NEW = 8`), exactly one transfer opens on the first
frame (start_frame 0), no transfer is closed through frame 27, the transfer
closes on frame 28 (the 8th consecutive ROI-absent frame), and the single
record stores a duration of 20 ROI-present frames. -/
theorem c5_transfer_lifecycle :
    (runFrames initState (scenarioFrames.take 1)).current_transfer_active = true
  ∧ (runFrames initState (scenarioFrames.take 1)).current_transfer_start_frame = 0
  ∧ (runFrames initState (scenarioFrames.take 27)).transfer_history = []
  ∧ (runFrames initState (scenarioFrames.take 27)).current_transfer_active = true
  ∧ (runFrames initState (scenarioFrames.take 28)).transfer_history.length = 1
  ∧ (runFrames initState (scenarioFrames.take 28)).current_transfer_active = false
  ∧ (runFrames initState scenarioFrames).transfer_count = 1
  ∧ (runFrames initState scenarioFrames).transfer_history.map
      (fun r => (r.duration_frames, r.start_frame)) = [(20, 0)] := by
  refine ⟨?_, ?_, ?_, ?_, ?_, ?_, ?_, ?_⟩ <;> decide

/-- Per-frame sequence bookkeeping of the ROI-present branch: the three
per-class sequences are appended (then possibly overwritten in place), the
OK/NO sequences are untouched. -/
theorem presentRoiUpdate_seqs_ex (s : State) (r : RoiFrameData) :
    ∃ a b c sa sb sc, (presentRoiUpdate s r).1.seqs =
      overrideFrameCounts r.detKeysNonempty (appendFrameCounts s.seqs a b c) sa sb sc :=
  ⟨_, _, _, _, _, _, rfl⟩

/-- The ROI-present branch activates the transfer. -/
theorem presentRoiUpdate_active (s : State) (r : RoiFrameData) :
    (presentRoiUpdate s r).1.current_transfer_active = true := rfl

/-- `bumpFrameCount` only touches the frame counter. -/
theorem bumpFrameCount_seqs (s : State) : (bumpFrameCount s).seqs = s.seqs := rfl

/-- `bumpFrameCount` preserves the transfer-active flag. -/
theorem bumpFrameCount_active (s : State) :
    (bumpFrameCount s).current_transfer_active = s.current_transfer_active := rfl

/-- Sequence lengths after `appendFrameCounts`. -/
theorem appendFrameCounts_lengths (seqs : TransferSeqs) (a b c : ℤ) :
    (appendFrameCounts seqs a b c).smudge.length = seqs.smudge.length + 1
  ∧ (appendFrameCounts seqs a b c).simbolos.length = seqs.simbolos.length + 1
  ∧ (appendFrameCounts seqs a b c).blackdot.length = seqs.blackdot.length + 1
  ∧ (appendFrameCounts seqs a b c).fifa_ok = seqs.fifa_ok
  ∧ (appendFrameCounts seqs a b c).fifa_no = seqs.fifa_no
  ∧ (appendFrameCounts seqs a b c).simbolo_ok = seqs.simbolo_ok
  ∧ (appendFrameCounts seqs a b c).simbolo_no = seqs.simbolo_no
  ∧ (appendFrameCounts seqs a b c).string_ok = seqs.string_ok
  ∧ (appendFrameCounts seqs a b c).string_no = seqs.string_no := by
  refine ⟨?_, ?_, ?_, rfl, rfl, rfl, rfl, rfl, rfl⟩ <;> simp [appendFrameCounts]

/-- `overrideFrameCounts` preserves every sequence length. -/
theorem overrideFrameCounts_lengths (cond : Bool) (seqs : TransferSeqs) (a b c : ℤ) :
    (overrideFrameCounts cond seqs a b c).smudge.length = seqs.smudge.length
  ∧ (overrideFrameCounts cond seqs a b c).simbolos.length = seqs.simbolos.length
  ∧ (overrideFrameCounts cond seqs a b c).blackdot.length = seqs.blackdot.length
  ∧ (overrideFrameCounts cond seqs a b c).fifa_ok = seqs.fifa_ok
  ∧ (overrideFrameCounts cond seqs a b c).fifa_no = seqs.fifa_no
  ∧ (overrideFrameCounts cond seqs a b c).simbolo_ok = seqs.simbolo_ok
  ∧ (overrideFrameCounts cond seqs a b c).simbolo_no = seqs.simbolo_no
  ∧ (overrideFrameCounts cond seqs a b c).string_ok = seqs.string_ok
  ∧ (overrideFrameCounts cond seqs a b c).string_no = seqs.string_no := by
  unfold overrideFrameCounts
  split_ifs <;> refine ⟨?_, ?_, ?_, rfl, rfl, rfl, rfl, rfl, rfl⟩ <;> simp [updateLast]

/-- Sequence bookkeeping of the OK/NO accumulation. -/
theorem appendOkNoSeqs_lengths (seqs : TransferSeqs) (b : Bool) (v : OkNoCounts) :
    (appendOkNoSeqs seqs b v).smudge = seqs.smudge
  ∧ (appendOkNoSeqs seqs b v).simbolos = seqs.simbolos
  ∧ (appendOkNoSeqs seqs b v).blackdot = seqs.blackdot
  ∧ (appendOkNoSeqs seqs b v).fifa_ok.length = seqs.fifa_ok.length + 1
  ∧ (appendOkNoSeqs seqs b v).fifa_no.length = seqs.fifa_no.length + 1
  ∧ (appendOkNoSeqs seqs b v).simbolo_ok.length = seqs.simbolo_ok.length + 1
  ∧ (appendOkNoSeqs seqs b v).simbolo_no.length = seqs.simbolo_no.length + 1
  ∧ (appendOkNoSeqs seqs b v).string_ok.length = seqs.string_ok.length + 1
  ∧ (appendOkNoSeqs seqs b v).string_no.length = seqs.string_no.length + 1 := by
  refine ⟨rfl, rfl, rfl, ?_, ?_, ?_, ?_, ?_, ?_⟩ <;> simp [appendOkNoSeqs]

/-- The OK/NO accumulation on an active transfer. -/
theorem appendOkNoCounts_seqs_active (s : State) (b : Bool) (v : OkNoCounts)
    (h : s.current_transfer_active = true) :
    (appendOkNoCounts s b v).seqs = appendOkNoSeqs s.seqs b v := by
  unfold appendOkNoCounts
  rw [if_pos h]

/-- The OK/NO accumulation on an inactive transfer. -/
theorem appendOkNoCounts_seqs_inactive (s : State) (b : Bool) (v : OkNoCounts)
    (h : s.current_transfer_active = false) :
    (appendOkNoCounts s b v).seqs = s.seqs := by
  unfold appendOkNoCounts
  rw [h]
  simp

/-- The ROI-absent branch when the absence threshold is not yet reached. -/
theorem absentRoiUpdate_not_closing (s : State)
    (hlt : s.frames_without_roi + 1 < s.absent_to_new) :
    absentRoiUpdate s = { s with frames_without_roi := s.frames_without_roi + 1 } := by
  simp only [absentRoiUpdate]
  rw [if_neg]
  simp only [Bool.and_eq_true, decide_eq_true_eq, not_and]
  intro _
  omega

/-- The ROI-absent branch that closes the transfer. -/
theorem absentRoiUpdate_closing (s : State) (ha : s.current_transfer_active = true)
    (hge : s.absent_to_new ≤ s.frames_without_roi + 1) :
    absentRoiUpdate s =
      { finalizeTransfer { s with frames_without_roi := s.frames_without_roi + 1 } with
        transfer_count :=
          (finalizeTransfer { s with
            frames_without_roi := s.frames_without_roi + 1 }).transfer_count + 1
        current_transfer_active := false
        current_transfer_frames := 0 } := by
  simp only [absentRoiUpdate]
  rw [if_pos]
  simp only [Bool.and_eq_true, decide_eq_true_eq]
  exact ⟨ha, by omega⟩

/-- `_finalize_transfer` clears all nine per-frame sequences. -/
theorem finalizeTransfer_seqs (s : State) : (finalizeTransfer s).seqs = TransferSeqs.empty := rfl

/-- C6 counterexample: after one ROI-present frame and one ROI-absent frame,
the transfer is still ACTIVE but the class-A per-frame sequence holds 1
entry while the `fifa_ok` sequence holds 2 — the per-frame sequences do NOT
all receive one entry per frame while ACTIVE. -/
theorem c6_counterexample :
    (runFrames initState [presentFrameNoDet, none]).seqs.smudge.length = 1
  ∧ (runFrames initState [presentFrameNoDet, none]).seqs.fifa_ok.length = 2
  ∧ (runFrames initState [presentFrameNoDet, none]).current_transfer_active = true := by
  refine ⟨?_, ?_, ?_⟩ <;> decide

/-- C6 amended: an ROI-present frame appends exactly one entry to each of
the nine per-frame sequences; an ROI-absent frame that does not close the
transfer appends one (zero) entry to each of the six OK/NO sequences only,
leaving the three per-class count sequences unchanged; the frame that closes
the transfer clears all nine sequences. -/
theorem c6_per_frame_appends_amended :
    (∀ (s : State) (r : RoiFrameData),
        (processFrame s (some r)).seqs.smudge.length = s.seqs.smudge.length + 1
      ∧ (processFrame s (some r)).seqs.simbolos.length = s.seqs.simbolos.length + 1
      ∧ (processFrame s (some r)).seqs.blackdot.length = s.seqs.blackdot.length + 1
      ∧ (processFrame s (some r)).seqs.fifa_ok.length = s.seqs.fifa_ok.length + 1
      ∧ (processFrame s (some r)).seqs.fifa_no.length = s.seqs.fifa_no.length + 1
      ∧ (processFrame s (some r)).seqs.simbolo_ok.length = s.seqs.simbolo_ok.length + 1
      ∧ (processFrame s (some r)).seqs.simbolo_no.length = s.seqs.simbolo_no.length + 1
      ∧ (processFrame s (some r)).seqs.string_ok.length = s.seqs.string_ok.length + 1
      ∧ (processFrame s (some r)).seqs.string_no.length = s.seqs.string_no.length + 1)
  ∧ (∀ s : State, s.current_transfer_active = true →
      s.frames_without_roi + 1 < s.absent_to_new →
        (processFrame s none).seqs.smudge = s.seqs.smudge
      ∧ (processFrame s none).seqs.simbolos = s.seqs.simbolos
      ∧ (processFrame s none).seqs.blackdot = s.seqs.blackdot
      ∧ (processFrame s none).seqs.fifa_ok.length = s.seqs.fifa_ok.length + 1
      ∧ (processFrame s none).seqs.fifa_no.length = s.seqs.fifa_no.length + 1
      ∧ (processFrame s none).seqs.simbolo_ok.length = s.seqs.simbolo_ok.length + 1
      ∧ (processFrame s none).seqs.simbolo_no.length = s.seqs.simbolo_no.length + 1
      ∧ (processFrame s none).seqs.string_ok.length = s.seqs.string_ok.length + 1
      ∧ (processFrame s none).seqs.string_no.length = s.seqs.string_no.length + 1)
  ∧ (∀ s : State, s.current_transfer_active = true →
      s.absent_to_new ≤ s.frames_without_roi + 1 →
        (processFrame s none).seqs = TransferSeqs.empty) := by
  refine ⟨?_, ?_, ?_⟩
  · intro s r
    rw [processFrame_some_eq, appendOkNoCounts_seqs_active _ _ _ rfl, bumpFrameCount_seqs]
    obtain ⟨a, b, c, sa, sb, sc, hseqs⟩ := presentRoiUpdate_seqs_ex s r
    rw [hseqs]
    obtain ⟨ho1, ho2, ho3, ho4, ho5, ho6, ho7, ho8, ho9⟩ :=
      appendOkNoSeqs_lengths (overrideFrameCounts r.detKeysNonempty
        (appendFrameCounts s.seqs a b c) sa sb sc)
        (decide ((0 : ℤ) < (presentRoiUpdate s r).2) && (r.simbolosEnabled && r.simbolosValid))
        r.okNo
    obtain ⟨hv1, hv2, hv3, hv4, hv5, hv6, hv7, hv8, hv9⟩ :=
      overrideFrameCounts_lengths r.detKeysNonempty (appendFrameCounts s.seqs a b c) sa sb sc
    obtain ⟨hf1, hf2, hf3, hf4, hf5, hf6, hf7, hf8, hf9⟩ :=
      appendFrameCounts_lengths s.seqs a b c
    refine ⟨?_, ?_, ?_, ?_, ?_, ?_, ?_, ?_, ?_⟩
    · rw [ho1, hv1, hf1]
    · rw [ho2, hv2, hf2]
    · rw [ho3, hv3, hf3]
    · rw [ho4, hv4, hf4]
    · rw [ho5, hv5, hf5]
    · rw [ho6, hv6, hf6]
    · rw [ho7, hv7, hf7]
    · rw [ho8, hv8, hf8]
    · rw [ho9, hv9, hf9]
  · intro s hactive hlt
    rw [processFrame_none_eq, absentRoiUpdate_not_closing s hlt,
      appendOkNoCounts_seqs_active _ _ _ (by exact hactive), bumpFrameCount_seqs]
    obtain ⟨ho1, ho2, ho3, ho4, ho5, ho6, ho7, ho8, ho9⟩ :=
      appendOkNoSeqs_lengths ({ s with frames_without_roi := s.frames_without_roi + 1 } :
        State).seqs false ⟨0, 0, 0, 0, 0, 0⟩
    exact ⟨ho1, ho2, ho3, ho4, ho5, ho6, ho7, ho8, ho9⟩
  · intro s hactive hge
    have hin := appendOkNoCounts_seqs_inactive (bumpFrameCount
      { finalizeTransfer { s with frames_without_roi := s.frames_without_roi + 1 } with
        transfer_count :=
          (finalizeTransfer { s with
            frames_without_roi := s.frames_without_roi + 1 }).transfer_count + 1
        current_transfer_active := false
        current_transfer_frames := 0 }) false ⟨0, 0, 0, 0, 0, 0⟩ rfl
    rw [processFrame_none_eq]
    rw [absentRoiUpdate_closing s hactive hge]
    rw [hin]
    rw [bumpFrameCount_seqs]
    show (finalizeTransfer { s with frames_without_roi := s.frames_without_roi + 1 }).seqs =
      TransferSeqs.empty
    exact finalizeTransfer_seqs _

/-- Witness for the amended C6: after the first ROI-present frame the
non-closing ROI-absent step appends only to the OK/NO sequences, and after
27 frames of Scenario A the next ROI-absent frame clears all sequences. -/
theorem c6_per_frame_appends_amended_witness :
    ((processFrame (runFrames initState (scenarioFrames.take 1)) none).seqs.smudge =
        (runFrames initState (scenarioFrames.take 1)).seqs.smudge
      ∧ (processFrame (runFrames initState (scenarioFrames.take 1)) none).seqs.fifa_ok.length =
        (runFrames initState (scenarioFrames.take 1)).seqs.fifa_ok.length + 1)
  ∧ (processFrame (runFrames initState (scenarioFrames.take 27)) none).seqs =
      TransferSeqs.empty :=
  ⟨⟨(c6_per_frame_appends_amended.2.1 _ (by decide) (by decide)).1,
    (c6_per_frame_appends_amended.2.1 _ (by decide) (by decide)).2.2.2.1⟩,
   c6_per_frame_appends_amended.2.2 _ (by decide) (by decide)⟩

/-! ## Claim theorems: C1 and C8 -/

/-- C1: the record built at transfer finalization is approved exactly when
none of the three per-class means of the per-frame count sequences exceeds
0.20; each rejection flag is set exactly when its class's mean exceeds 0.20;
and `_finalize_transfer` appends exactly this record to the history. -/
theorem c1_approval_rule (s : State) :
    ((transferRecordOf s).approved = true ↔
      (avgOf s.seqs.smudge ≤ 1/5 ∧ avgOf s.seqs.simbolos ≤ 1/5 ∧ avgOf s.seqs.blackdot ≤ 1/5))
  ∧ ((transferRecordOf s).smudge_reject = true ↔ 1/5 < avgOf s.seqs.smudge)
  ∧ ((transferRecordOf s).simbolos_reject = true ↔ 1/5 < avgOf s.seqs.simbolos)
  ∧ ((transferRecordOf s).blackdot_reject = true ↔ 1/5 < avgOf s.seqs.blackdot)
  ∧ (finalizeTransfer s).transfer_history.getLast? = some (transferRecordOf s) := by
  refine ⟨?_, ?_, ?_, ?_, ?_⟩
  · simp only [transferRecordOf, Bool.not_eq_true', Bool.or_eq_false_iff,
      decide_eq_false_iff_not, not_lt]
    constructor
    · intro ⟨⟨h1, h2⟩, h3⟩; exact ⟨h1, h2, h3⟩
    · intro ⟨h1, h2, h3⟩; exact ⟨⟨h1, h2⟩, h3⟩
  · simp [transferRecordOf]
  · simp [transferRecordOf]
  · simp [transferRecordOf]
  · show ((if 100 < (s.transfer_history ++ [transferRecordOf s]).length then
        (s.transfer_history ++ [transferRecordOf s]).drop 1
      else s.transfer_history ++ [transferRecordOf s]) : List TransferRecord).getLast? = _
    split_ifs with h
    · have hne : 1 ≤ s.transfer_history.length := by
        simp only [List.length_append, List.length_cons, List.length_nil] at h
        omega
      rw [List.drop_append_of_le_length hne]
      exact List.getLast?_concat _
    · exact List.getLast?_concat _

/-- C8: with an empty transfer history the summary returns zero evaluated
transfers and the explicit placeholder (class "Nenhuma", count 0,
percentage 0.0); and whenever the total of the error counts is zero the
reported percentage is 0 — the division is guarded, never performed. -/
theorem c8_empty_history_summary :
    (getFinalStatisticsSummary [] =
      { total_transfers_evaluated := 0
        most_frequent_error :=
          { errClass := "Nenhuma", errType := "N/A", count := 0, percentage := 0 } })
  ∧ ∀ hist : List TransferRecord,
      ((errorCounts hist).map (fun p => p.2)).sum = 0 →
        (getFinalStatisticsSummary hist).most_frequent_error.percentage = 0 := by
  constructor
  · rfl
  · intro hist hsum
    unfold getFinalStatisticsSummary
    split_ifs with h
    · rfl
    · dsimp only
      rw [hsum]
      norm_num

/-- Witness for C8 at a one-record history whose error counts are all
zero (the record of a finalized empty transfer). -/
theorem c8_empty_history_summary_witness :
    (getFinalStatisticsSummary [transferRecordOf initState]).most_frequent_error.percentage
      = 0 :=
  c8_empty_history_summary.2 [transferRecordOf initState] (by decide)

end Cromos
